import Mathlib

/-
Shallow embedding in Lean 4 of the telemetry ingestion/batching backend
(`src/backend/run_enhanced_supabase.py`, `src/backend/telemetry_storage.py`).

Strings are modelled as `List Char`; Python dicts (insertion ordered,
in-place update) as association lists with Python's assignment semantics;
the remote Supabase insert as an oracle giving the outcome of each insert
attempt; `time.sleep` as an accumulated list of requested durations.
-/

set_option maxRecDepth 4000

namespace TelemetrySpec

/-- Python truthiness/values appearing in a parsed telemetry record:
`int`, `float` (modelled exactly as a rational rather than an IEEE double —
no claim below depends on rounding) or `str`. -/
inductive PyVal where
  | int : Int → PyVal
  | float : ℚ → PyVal
  | str : List Char → PyVal
deriving DecidableEq

instance : Inhabited PyVal := ⟨.int 0⟩

/-- A Python dict as produced by the parser: insertion-ordered association
list from key (string as `List Char`) to value. -/
abbrev Record := List (List Char × PyVal)

/-- Python `d.__contains__(k)` / `k in d`. -/
def dict_contains (d : Record) (k : List Char) : Bool :=
  d.any (fun p => decide (p.1 = k))

/-- Lookup of the value stored at key `k`, `none` when absent. -/
def dict_get (d : Record) (k : List Char) : Option PyVal :=
  (d.find? (fun p => decide (p.1 = k))).map Prod.snd

/-- Python `d[k] = v`: replace in place when the key is present (keeping its
position), else append at the end. -/
def dict_set (d : Record) (k : List Char) (v : PyVal) : Record :=
  if dict_contains d k then
    d.map (fun p => if p.1 = k then (k, v) else p)
  else d ++ [(k, v)]

/-- Python `str.strip()` (ASCII whitespace; the repository only feeds ASCII). -/
def stripChars (cs : List Char) : List Char :=
  ((cs.dropWhile Char.isWhitespace).reverse.dropWhile Char.isWhitespace).reverse

/-- Python `s.split(sep)` for a one-character separator: keeps empty pieces,
`"".split(sep) == ['']`. -/
def splitOnChar (sep : Char) : List Char → List (List Char)
  | [] => [[]]
  | c :: cs =>
    let r := splitOnChar sep cs
    if c = sep then [] :: r
    else
      match r with
      | [] => [[c]]
      | h :: t => (c :: h) :: t

/-- Python `pair.split(':', 1)` restricted to the case `':' in pair`
(the code checks this before splitting): text before the first colon,
and everything after it. -/
def split_first_colon (cs : List Char) : List Char × List Char :=
  (cs.takeWhile (fun c => decide (c ≠ ':')),
   (cs.dropWhile (fun c => decide (c ≠ ':'))).drop 1)

/-- Digit run possibly holding single underscores between digits, as accepted
inside Python numeric literals handed to `int()` / `float()`: nonempty, made
of digits and `'_'`, first and last characters digits, no two consecutive
underscores. -/
def ok_digit_group (cs : List Char) : Bool :=
  (!cs.isEmpty) &&
  cs.all (fun c => c.isDigit || c == '_') &&
  (match cs.head? with | some c => c.isDigit | none => false) &&
  (match cs.getLast? with | some c => c.isDigit | none => false) &&
  no_double_underscore cs
where
  no_double_underscore : List Char → Bool
    | [] => true
    | [_] => true
    | a :: b :: rest => (!(a == '_' && b == '_')) && no_double_underscore (b :: rest)

/-- Numeric value of a run of decimal digits. -/
def digits_val (cs : List Char) : Nat :=
  cs.foldl (fun a c => 10 * a + (c.toNat - 48)) 0

/-- Value of an unsigned digit group once underscores are removed; `none`
models `ValueError`. -/
def pyint_core (cs : List Char) : Option Nat :=
  if ok_digit_group cs then
    some (digits_val (cs.filter (fun c => decide (c ≠ '_'))))
  else none

/-- Model of Python's built-in `int(s)` on an ASCII string: strip whitespace,
optional sign, decimal digits with single underscores between digits.
`none` models the `ValueError` raised on anything else. -/
def pyint (s : List Char) : Option Int :=
  match stripChars s with
  | '+' :: rest => (pyint_core rest).map (fun n => (n : Int))
  | '-' :: rest => (pyint_core rest).map (fun n => -(n : Int))
  | t => (pyint_core t).map (fun n => (n : Int))

/-- Mantissa of a Python float literal: returns (all mantissa digits as one
number, count of fractional digits), `none` on a malformed mantissa (in
particular a second `'.'`). -/
def pyfloat_mantissa (cs : List Char) : Option (Nat × Nat) :=
  if cs.contains '.' then
    let a := cs.takeWhile (fun c => decide (c ≠ '.'))
    let b := (cs.dropWhile (fun c => decide (c ≠ '.'))).drop 1
    if b.contains '.' then none
    else if (a.isEmpty || ok_digit_group a) && (b.isEmpty || ok_digit_group b)
            && (!(a.isEmpty && b.isEmpty)) then
      some (digits_val ((a ++ b).filter (fun c => decide (c ≠ '_'))),
            (b.filter (fun c => decide (c ≠ '_'))).length)
    else none
  else
    if ok_digit_group cs then
      some (digits_val (cs.filter (fun c => decide (c ≠ '_'))), 0)
    else none

/-- Splits a float literal at the first `'e'`/`'E'`, when present. -/
def split_on_exp (cs : List Char) : List Char × Option (List Char) :=
  let m := cs.takeWhile (fun c => decide (c ≠ 'e' ∧ c ≠ 'E'))
  match cs.dropWhile (fun c => decide (c ≠ 'e' ∧ c ≠ 'E')) with
  | [] => (m, none)
  | _ :: r => (m, some r)

/-- Signed exponent part after `'e'`: optional sign then a digit group. -/
def py_exp_val (cs : List Char) : Option Int :=
  match cs with
  | '+' :: r => (pyint_core r).map (fun n => (n : Int))
  | '-' :: r => (pyint_core r).map (fun n => -(n : Int))
  | r => (pyint_core r).map (fun n => (n : Int))

/-- Model of Python's built-in `float(s)` on finite ASCII decimal literals
(`inf`/`nan` spellings are not modelled: the only caller hands `float` a
string containing `'.'`, which those spellings never contain). The exact
value is kept as a rational; `none` models `ValueError`. -/
def pyfloat (s : List Char) : Option ℚ :=
  let t0 := stripChars s
  let sgn : ℚ := match t0 with | '-' :: _ => -1 | _ => 1
  let t1 : List Char := match t0 with | '+' :: r => r | '-' :: r => r | r => r
  let me := split_on_exp t1
  match pyfloat_mantissa me.1 with
  | none => none
  | some mv =>
    match me.2 with
    | none => some (sgn * (mv.1 : ℚ) / (10 ^ mv.2 : ℚ))
    | some ecs =>
      match py_exp_val ecs with
      | none => none
      | some e => some (sgn * (mv.1 : ℚ) / (10 ^ mv.2 : ℚ) * (10 : ℚ) ^ e)

/-- `SimpleTelemetryParser._convert_value`: `try: if '.' not in value:
return int(value); return float(value); except ValueError: return value`. -/
def convert_value (value : List Char) : PyVal :=
  if value.contains '.' = false then
    match pyint value with
    | some n => .int n
    | none => .str value
  else
    match pyfloat value with
    | some q => .float q
    | none => .str value

/-- Fields parsed out of the raw line by the loop body of
`parse_telemetry_line`, before the metadata is attached. -/
def parse_fields (raw_data : List Char) : Record :=
  if raw_data.contains ',' then
    (splitOnChar ',' (stripChars raw_data)).foldl
      (fun d pair =>
        if pair.contains ':' then
          dict_set d ((stripChars (split_first_colon pair).1).map Char.toLower)
            (convert_value (stripChars (split_first_colon pair).2))
        else d) []
  else
    if raw_data.contains ':' then
      dict_set [] ((stripChars (split_first_colon raw_data).1).map Char.toLower)
        (convert_value (stripChars (split_first_colon raw_data).2))
    else []

/-- `SimpleTelemetryParser.parse_telemetry_line`, happy path: parse the
pairs then assign the three metadata keys (Python dict assignment, so a
parsed field named e.g. `raw_data` is overwritten). The function is total:
no operation in the body can raise on a string input. -/
def parse_telemetry_line (raw_data : List Char) : Record :=
  dict_set (dict_set (dict_set (parse_fields raw_data)
      "raw_data".data (.str raw_data))
    "parser_version".data (.str "1.0".data))
  "data_source".data (.str "flask_api".data)

/-- The record built by the `except` handler of `parse_telemetry_line`:
exactly the three metadata fields plus `parse_error`. -/
def parse_error_record (raw_data err : List Char) : Record :=
  [("raw_data".data, .str raw_data),
   ("parser_version".data, .str "1.0".data),
   ("data_source".data, .str "flask_api".data),
   ("parse_error".data, .str err)]

/-- Outcome of one remote `table("telemetry").insert(chunk).execute()` call:
the call returned (with `response.data` truthy or not), or raised. -/
inductive InsertOutcome where
  | ok : Bool → InsertOutcome
  | exn : InsertOutcome
deriving DecidableEq

/-- Wait computed in the `except` branch of `_write_chunk_with_retry`:
`wait_time = (2 ** attempt) * 0.5` seconds. -/
def backoff_wait (attempt : Nat) : ℚ :=
  (2 ^ attempt : ℚ) * (1 / 2)

/-- Observable behaviour of one `_write_chunk_with_retry` call: the returned
boolean, the number of insert attempts actually made, and the durations
passed to `time.sleep` in order. -/
structure ChunkResult where
  success : Bool
  attempts : Nat
  sleeps : List ℚ
deriving DecidableEq

/-- Body of the loop `for attempt in range(self.max_retries)` of
`_write_chunk_with_retry`, with `fuel = max_retries - attempt` iterations
left and `oracle i` the outcome of the `i`-th insert attempt. The sleep
happens only in the `except` branch and only when `attempt <
max_retries - 1`; a returned-but-empty response logs a warning and falls
through to the next iteration without sleeping. -/
def write_chunk_loop (max_retries : Nat) (oracle : Nat → InsertOutcome) :
    Nat → Nat → ChunkResult
  | _, 0 => ⟨false, 0, []⟩
  | attempt, fuel + 1 =>
    match oracle attempt with
    | .ok true => ⟨true, 1, []⟩
    | .ok false =>
      let r := write_chunk_loop max_retries oracle (attempt + 1) fuel
      ⟨r.success, r.attempts + 1, r.sleeps⟩
    | .exn =>
      let r := write_chunk_loop max_retries oracle (attempt + 1) fuel
      if attempt < max_retries - 1 then
        ⟨r.success, r.attempts + 1, backoff_wait attempt :: r.sleeps⟩
      else ⟨r.success, r.attempts + 1, r.sleeps⟩

/-- `TelemetryStorage._write_chunk_with_retry`: run the retry loop from
attempt 0. -/
def write_chunk_with_retry (max_retries : Nat) (oracle : Nat → InsertOutcome) :
    ChunkResult :=
  write_chunk_loop max_retries oracle 0 max_retries

/-- Chunking in `_write_telemetry_batch`:
`[data[i:i + self.batch_size] for i in range(0, len(data), self.batch_size)]`.
Rendered for a positive step; Python raises `ValueError` on step 0, so all
theorems below about the batching layer assume `0 < batch_size`. -/
def py_chunks (batch_size : Nat) (data : List Record) : List (List Record) :=
  (List.range ((data.length + batch_size - 1) / batch_size)).map
    (fun j => (data.drop (j * batch_size)).take batch_size)

/-- Loop of `_write_telemetry_batch` over the chunks, with `cw chunk idx`
the boolean result of `_write_chunk_with_retry(chunk, idx)`. Returns the
overall boolean and the list of chunk-write calls actually made, in order. -/
def write_batch_go (cw : List Record → Nat → Bool) :
    List (List Record) → Nat → Bool × List (List Record)
  | [], _ => (true, [])
  | c :: rest, idx =>
    if cw c idx then
      let r := write_batch_go cw rest (idx + 1)
      (r.1, c :: r.2)
    else (false, [c])

/-- `TelemetryStorage._write_telemetry_batch`: empty data is a no-op
returning true; otherwise the data is chunked and the chunks are written
sequentially, stopping at the first failure. -/
def write_telemetry_batch (batch_size : Nat) (cw : List Record → Nat → Bool)
    (data : List Record) : Bool × List (List Record) :=
  if data.isEmpty then (true, [])
  else write_batch_go cw (py_chunks batch_size data) 0

/-- Mutable state of a `TelemetryStorage` instance. -/
structure TelemetryStorage where
  batch_size : Nat
  max_retries : Nat
  pending_batch : List Record
deriving DecidableEq

/-- `TelemetryStorage.get_batch_status`, with `health` the result of the
`supabase_client.health_check()` probe. -/
structure BatchStatus where
  pending_records : Nat
  batch_size : Nat
  batch_full : Bool
  supabase_healthy : Bool
deriving DecidableEq

/-- Builds the status snapshot: `len(pending_batch)`, configured size,
`len(pending_batch) >= batch_size`, probe result. -/
def get_batch_status (health : Bool) (s : TelemetryStorage) : BatchStatus :=
  ⟨s.pending_batch.length, s.batch_size,
   decide (s.batch_size ≤ s.pending_batch.length), health⟩

/-- `TelemetryStorage.flush_batch`: no-op returning true on an empty batch;
otherwise write the whole pending batch, clear it only on success. Returns
(result, new state, chunk-write calls made). -/
def flush_batch (cw : List Record → Nat → Bool) (s : TelemetryStorage) :
    Bool × TelemetryStorage × List (List Record) :=
  if s.pending_batch.isEmpty then (true, s, [])
  else
    if (write_telemetry_batch s.batch_size cw s.pending_batch).1 then
      (true, { s with pending_batch := [] },
       (write_telemetry_batch s.batch_size cw s.pending_batch).2)
    else (false, s, (write_telemetry_batch s.batch_size cw s.pending_batch).2)

/-- Timestamp stamping at the top of `add_telemetry_data`:
`if 'created_at' not in telemetry_data: telemetry_data['created_at'] = ...`.
The update is in place on the caller's dict. -/
def stamp_created_at (record : Record) (now : List Char) : Record :=
  if dict_contains record "created_at".data then record
  else dict_set record "created_at".data (.str now)

/-- `TelemetryStorage.add_telemetry_data`: stamp, append, flush when the
batch reached `batch_size`. Returns (result, new state, number of
`flush_batch` invocations made by this call). -/
def add_telemetry_data (cw : List Record → Nat → Bool) (now : List Char)
    (record : Record) (s : TelemetryStorage) : Bool × TelemetryStorage × Nat :=
  if s.batch_size ≤ (s.pending_batch ++ [stamp_created_at record now]).length then
    ((flush_batch cw { s with pending_batch := s.pending_batch ++ [stamp_created_at record now] }).1,
     (flush_batch cw { s with pending_batch := s.pending_batch ++ [stamp_created_at record now] }).2.1,
     1)
  else (true, { s with pending_batch := s.pending_batch ++ [stamp_created_at record now] }, 0)

/-- A sequence of `add_telemetry_data` calls; second component counts the
total number of `flush_batch` invocations they triggered. -/
def add_seq (cw : List Record → Nat → Bool) (now : List Char)
    (records : List Record) (s : TelemetryStorage) : TelemetryStorage × Nat :=
  records.foldl
    (fun acc r =>
      let a := add_telemetry_data cw now r acc.1
      (a.2.1, acc.2 + a.2.2)) (s, 0)

/-- The part of the `/telemetry/parse` response a claim below talks about:
HTTP status, the serialized `parsed_data` (absent on the 400 path), and the
`stored` flag (absent when `store` is false). -/
structure IngestResponse where
  status : Nat
  parsed_data : Option Record
  stored : Option Bool
deriving DecidableEq

/-- The `parse_telemetry` route: reject an empty body with 400, parse, and
when `store` is requested add the parsed dict to the storage. The response
serializes the same dict object that `add_telemetry_data` mutated in place,
so on the store path `parsed_data` is the stamped record. -/
def parse_telemetry_route (cw : List Record → Nat → Bool) (now : List Char)
    (raw : List Char) (store : Bool) (s : TelemetryStorage) :
    IngestResponse × TelemetryStorage :=
  if raw.isEmpty then (⟨400, none, none⟩, s)
  else
    let parsed := parse_telemetry_line raw
    if store then
      let a := add_telemetry_data cw now parsed s
      (⟨200, some (stamp_created_at parsed now), some a.1⟩, a.2.1)
    else (⟨200, some parsed, none⟩, s)

/-- Raw query-string arguments of the `/telemetry/query` route (each `none`
when the parameter is absent). -/
structure QueryArgs where
  limit : Option (List Char)
  offset : Option (List Char)
  order_by : Option (List Char)
  desc : Option (List Char)

/-- The query the route hands to the remote store:
`order(order_by, desc)` then `range(offset, offset + limit - 1)`. -/
structure QueryCall where
  order_by : List Char
  descending : Bool
  range_lo : Int
  range_hi : Int
deriving DecidableEq

/-- Models `int(request.args.get(name, d))`: an absent parameter yields the
integer `d` unchanged, a present one goes through Python `int()`; `none`
models the `ValueError` that the route's blanket handler turns into a 500. -/
def py_arg_int (arg : Option (List Char)) (d : Int) : Option Int :=
  match arg with
  | none => some d
  | some s => pyint s

/-- The `query_telemetry` route: parse `limit` (default 100) and `offset`
(default 0) with `int()`, build the remote query and execute it. Returns
(HTTP status, whether the remote store was called, the query built).
A `ValueError` from `int()` is caught by the route's blanket `except`,
which answers 500 before any remote call; no bound or sign of `limit` /
`offset` is checked. -/
def query_telemetry (args : QueryArgs) : Nat × Bool × Option QueryCall :=
  match py_arg_int args.limit 100 with
  | none => (500, false, none)
  | some lim =>
    match py_arg_int args.offset 0 with
    | none => (500, false, none)
    | some off =>
      let ob := args.order_by.getD "created_at".data
      let de := decide (((args.desc.getD "true".data).map Char.toLower) = "true".data)
      (200, true, some ⟨ob, de, off, off + lim - 1⟩)

/-! Association-list lemmas about the Python-dict operations. -/

theorem find_set_mem (k : List Char) (v : PyVal) :
    ∀ d : Record, dict_contains d k = true →
      List.find? (fun p => decide (p.1 = k))
        (d.map (fun p => if p.1 = k then (k, v) else p)) = some (k, v)
  | [], h => by simp [dict_contains] at h
  | a :: d, h => by
    by_cases ha : a.1 = k
    · simp [ha]
    · have hd : dict_contains d k = true := by
        simpa [dict_contains, ha] using h
      simpa [ha] using find_set_mem k v d hd

theorem find_notmem (k : List Char) (v : PyVal) :
    ∀ d : Record, dict_contains d k = false →
      List.find? (fun p => decide (p.1 = k)) (d ++ [(k, v)]) = some (k, v)
  | [], _ => by simp
  | a :: d, h => by
    have ha : ¬ (a.1 = k) := by
      intro hak
      simp [dict_contains, hak] at h
    have hd : dict_contains d k = false := by
      simpa [dict_contains, ha] using h
    simpa [ha] using find_notmem k v d hd

theorem dict_get_set_self (d : Record) (k : List Char) (v : PyVal) :
    dict_get (dict_set d k v) k = some v := by
  unfold dict_get dict_set
  by_cases h : dict_contains d k
  · simp [h, find_set_mem k v d h]
  · simp [h, find_notmem k v d (by simpa using h)]

theorem find_map_set_ne (k k' : List Char) (v : PyVal) (hne : k' ≠ k) :
    ∀ d : Record,
      List.find? (fun p => decide (p.1 = k'))
        (d.map (fun p => if p.1 = k then (k, v) else p)) =
      List.find? (fun p => decide (p.1 = k')) d
  | [] => by simp
  | a :: d => by
    by_cases ha : a.1 = k
    · have hne2 : ¬ ((k, v).1 = k') := fun hk => hne hk.symm
      have hne3 : ¬ (a.1 = k') := by
        rw [ha]; exact fun hk => hne hk.symm
      simp only [List.map_cons, ha, if_pos rfl]
      rw [List.find?_cons_of_neg _ (by simpa using hne2),
        List.find?_cons_of_neg _ (by simpa using hne3)]
      exact find_map_set_ne k k' v hne d
    · by_cases ha' : a.1 = k'
      · simp only [List.map_cons, if_neg ha]
        rw [List.find?_cons_of_pos _ (by simpa using ha'),
          List.find?_cons_of_pos _ (by simpa using ha')]
      · simp only [List.map_cons, if_neg ha]
        rw [List.find?_cons_of_neg _ (by simpa using ha'),
          List.find?_cons_of_neg _ (by simpa using ha')]
        exact find_map_set_ne k k' v hne d

theorem find_append_ne (k k' : List Char) (v : PyVal) (hne : k' ≠ k) :
    ∀ d : Record,
      List.find? (fun p => decide (p.1 = k')) (d ++ [(k, v)]) =
      List.find? (fun p => decide (p.1 = k')) d
  | [] => by
    have : ¬ ((k, v).1 = k') := fun hk => hne hk.symm
    simpa using this
  | a :: d => by
    by_cases ha : a.1 = k'
    · simp [ha]
    · rw [List.cons_append, List.find?_cons_of_neg _ (by simpa using ha),
        List.find?_cons_of_neg _ (by simpa using ha)]
      exact find_append_ne k k' v hne d

theorem dict_get_set_ne (d : Record) (k k' : List Char) (v : PyVal)
    (hne : k' ≠ k) : dict_get (dict_set d k v) k' = dict_get d k' := by
  unfold dict_get dict_set
  by_cases h : dict_contains d k
  · simp [h, find_map_set_ne k k' v hne d]
  · simp [h, find_append_ne k k' v hne d]

theorem dict_contains_set_self (d : Record) (k : List Char) (v : PyVal) :
    dict_contains (dict_set d k v) k = true := by
  unfold dict_set
  by_cases h : dict_contains d k
  · rw [if_pos h]
    induction d with
    | nil => simp [dict_contains] at h
    | cons a d ih =>
      by_cases ha : a.1 = k
      · simp [dict_contains, ha]
      · have hd : dict_contains d k = true := by
          simpa [dict_contains, ha] using h
        have := ih hd
        simpa [dict_contains, ha] using this
  · rw [if_neg h]
    simp [dict_contains]

/-- C7: for every value string handed to `_convert_value`: a string without
`'.'` is decided by the integer parse alone (the result is never a float),
a string containing `'.'` is decided by the float parse alone (the result is
never an int — the integer parse is skipped), and on parse failure the
trimmed string itself is kept — in particular `"1.2.3"` stays the literal
string `"1.2.3"`. -/
theorem convert_value_policy :
    (∀ v : List Char, v.contains '.' = false →
      convert_value v =
        (match pyint v with | some n => PyVal.int n | none => PyVal.str v))
  ∧ (∀ v : List Char, v.contains '.' = true →
      convert_value v =
        (match pyfloat v with | some q => PyVal.float q | none => PyVal.str v))
  ∧ (∀ v : List Char, v.contains '.' = true → ∀ n : Int,
      convert_value v ≠ PyVal.int n)
  ∧ (∀ v : List Char, v.contains '.' = false → ∀ q : ℚ,
      convert_value v ≠ PyVal.float q)
  ∧ convert_value "1.2.3".data = PyVal.str "1.2.3".data := by
  refine ⟨?_, ?_, ?_, ?_, by decide⟩
  · intro v h
    unfold convert_value
    rw [h]
    exact if_pos rfl
  · intro v h
    unfold convert_value
    rw [h]
    exact if_neg (by simp)
  · intro v h n
    simp only [convert_value, h]
    cases pyfloat v <;> simp
  · intro v h q
    simp only [convert_value, h]
    cases pyint v <;> simp

/-- Witness for C7 at concrete inputs: `"42"` (no dot, integer parse
succeeds) and `"1.2.3"` (dot present, float parse fails, literal kept). -/
theorem convert_value_policy_witness :
    convert_value "42".data = PyVal.int 42
  ∧ convert_value "1.2.3".data = PyVal.str "1.2.3".data :=
  ⟨(convert_value_policy.1 "42".data (by decide)).trans (by decide),
   convert_value_policy.2.2.2.2⟩

/-- C8: `parse_telemetry_line` is a total function of the input string
(it never raises: its Lean embedding needs no error monad because no
operation in the body can fail on a string input), its result always holds
`raw_data` equal to the input, `parser_version` equal to the constant
`"1.0"` and `data_source` equal to the constant `"flask_api"`; and the
record built by the `except` handler holds exactly these three metadata
fields plus a `parse_error` string field and nothing else. -/
theorem parse_metadata_spec :
    (∀ raw : List Char,
        dict_get (parse_telemetry_line raw) "raw_data".data
          = some (PyVal.str raw)
      ∧ dict_get (parse_telemetry_line raw) "parser_version".data
          = some (PyVal.str "1.0".data)
      ∧ dict_get (parse_telemetry_line raw) "data_source".data
          = some (PyVal.str "flask_api".data))
  ∧ (∀ raw err : List Char,
        (parse_error_record raw err).map Prod.fst =
          ["raw_data".data, "parser_version".data,
           "data_source".data, "parse_error".data]
      ∧ dict_get (parse_error_record raw err) "raw_data".data
          = some (PyVal.str raw)
      ∧ dict_get (parse_error_record raw err) "parser_version".data
          = some (PyVal.str "1.0".data)
      ∧ dict_get (parse_error_record raw err) "data_source".data
          = some (PyVal.str "flask_api".data)
      ∧ dict_get (parse_error_record raw err) "parse_error".data
          = some (PyVal.str err)) := by
  constructor
  · intro raw
    unfold parse_telemetry_line
    refine ⟨?_, ?_, ?_⟩
    · rw [dict_get_set_ne _ _ _ _ (by decide),
        dict_get_set_ne _ _ _ _ (by decide), dict_get_set_self]
    · rw [dict_get_set_ne _ _ _ _ (by decide), dict_get_set_self]
    · rw [dict_get_set_self]
  · intro raw err
    exact ⟨rfl, rfl, rfl, rfl, rfl⟩

/-! Retry-loop lemmas. -/

theorem write_chunk_loop_no_success (mr : Nat) (oracle : Nat → InsertOutcome) :
    ∀ (fuel attempt : Nat),
      (∀ i, attempt ≤ i → i < attempt + fuel → oracle i ≠ .ok true) →
      (write_chunk_loop mr oracle attempt fuel).success = false ∧
      (write_chunk_loop mr oracle attempt fuel).attempts = fuel := by
  intro fuel
  induction fuel with
  | zero => intro attempt _; exact ⟨rfl, rfl⟩
  | succ f ih =>
    intro attempt ho
    have hne : oracle attempt ≠ .ok true :=
      ho attempt (Nat.le_refl _) (by omega)
    have ih2 := ih (attempt + 1) (fun i h1 h2 => ho i (by omega) (by omega))
    cases hoc : oracle attempt with
    | ok b =>
      cases b with
      | true => exact absurd hoc hne
      | false =>
        simp only [write_chunk_loop, hoc]
        exact ⟨ih2.1, by rw [ih2.2]⟩
    | exn =>
      simp only [write_chunk_loop, hoc]
      by_cases hlt : attempt < mr - 1
      · rw [if_pos hlt]
        exact ⟨ih2.1, by rw [ih2.2]⟩
      · rw [if_neg hlt]
        exact ⟨ih2.1, by rw [ih2.2]⟩

theorem write_chunk_loop_all_exn (mr : Nat) (oracle : Nat → InsertOutcome) :
    ∀ (fuel attempt : Nat), attempt + fuel = mr →
      (∀ i, attempt ≤ i → i < mr → oracle i = .exn) →
      write_chunk_loop mr oracle attempt fuel =
        ⟨false, fuel, (List.range' attempt (fuel - 1)).map backoff_wait⟩ := by
  intro fuel
  induction fuel with
  | zero => intro attempt _ _; rfl
  | succ f ih =>
    intro attempt hsum ho
    have hoc : oracle attempt = .exn := ho attempt (Nat.le_refl _) (by omega)
    have ih2 := ih (attempt + 1) (by omega) (fun i h1 h2 => ho i (by omega) h2)
    simp only [write_chunk_loop, hoc, ih2]
    cases f with
    | zero =>
      rw [if_neg (by omega)]
      simp
    | succ f' =>
      rw [if_pos (by omega)]
      simp [List.range'_succ]

/-- C1: a chunk write where no insert attempt succeeds makes exactly
`max_retries` insert attempts and returns false; when every attempt fails
by raising, the sleeps between consecutive attempts are exactly
`0.5 * 2 ^ attempt` seconds for `attempt = 0, 1, …, max_retries - 2`
(`0.5s, 1s, 2s, …`; no sleep after the final attempt). -/
theorem write_chunk_retry_exhausts :
    (∀ (max_retries : Nat) (oracle : Nat → InsertOutcome),
       (∀ i, i < max_retries → oracle i ≠ .ok true) →
         (write_chunk_with_retry max_retries oracle).success = false
       ∧ (write_chunk_with_retry max_retries oracle).attempts = max_retries)
  ∧ (∀ (max_retries : Nat) (oracle : Nat → InsertOutcome),
       (∀ i, i < max_retries → oracle i = .exn) →
         write_chunk_with_retry max_retries oracle =
           ⟨false, max_retries, (List.range (max_retries - 1)).map backoff_wait⟩)
  ∧ backoff_wait 0 = 1 / 2 ∧ backoff_wait 1 = 1 ∧ backoff_wait 2 = 2 := by
  refine ⟨?_, ?_, ?_, ?_, ?_⟩
  · intro mr oracle ho
    exact write_chunk_loop_no_success mr oracle mr 0
      (fun i h1 h2 => ho i (by omega))
  · intro mr oracle ho
    rw [List.range_eq_range']
    exact write_chunk_loop_all_exn mr oracle mr 0 (by omega)
      (fun i _ h2 => ho i h2)
  · norm_num [backoff_wait]
  · norm_num [backoff_wait]
  · norm_num [backoff_wait]

/-- Witness for C1: with `max_retries = 3` and every attempt raising, the
chunk write makes 3 attempts, sleeps `backoff_wait 0` then `backoff_wait 1`
between them, and returns false. -/
theorem write_chunk_retry_exhausts_witness :
    write_chunk_with_retry 3 (fun _ => InsertOutcome.exn) =
      ⟨false, 3, [backoff_wait 0, backoff_wait 1]⟩ :=
  (write_chunk_retry_exhausts.2.1 3 (fun _ => InsertOutcome.exn)
    (fun _ _ => rfl)).trans (by rfl)

/-! Chunking lemmas. -/

theorem py_chunks_nil (bs : Nat) : py_chunks bs [] = [] := by
  cases bs with
  | zero => rfl
  | succ b =>
    simp [py_chunks, Nat.div_eq_of_lt (by omega : b < b + 1)]

theorem py_chunks_cons (bs : Nat) (hbs : 0 < bs) (data : List Record)
    (hd : data ≠ []) :
    py_chunks bs data = data.take bs :: py_chunks bs (data.drop bs) := by
  have hlen : 0 < data.length := List.length_pos.mpr hd
  have hN : (data.length + bs - 1) / bs =
      ((data.drop bs).length + bs - 1) / bs + 1 := by
    rw [List.length_drop]
    rcases le_or_lt bs data.length with hle | hlt
    · have h1 : data.length + bs - 1 = (data.length - 1) + bs := by omega
      have h2 : data.length - bs + bs - 1 = data.length - 1 := by omega
      rw [h1, h2, Nat.add_div_right _ hbs]
    · have h1 : data.length - bs = 0 := by omega
      have h2 : (data.length + bs - 1) / bs = 1 := by
        apply Nat.div_eq_of_lt_le
        · omega
        · have : (1 + 1) * bs = bs + bs := by ring
          omega
      have h3 : (0 + bs - 1) / bs = 0 := Nat.div_eq_of_lt (by omega)
      rw [h1, h2, h3]
  unfold py_chunks
  rw [hN, List.range_succ_eq_map, List.map_cons]
  congr 1
  · simp
  · rw [List.map_map]
    apply List.map_congr_left
    intro j _
    simp only [Function.comp_apply]
    rw [List.drop_drop, Nat.succ_mul, Nat.add_comm (j * bs) bs]

theorem py_chunks_flatten (bs : Nat) (hbs : 0 < bs) :
    ∀ (n : Nat) (data : List Record), data.length ≤ n →
      (py_chunks bs data).flatten = data := by
  intro n
  induction n with
  | zero =>
    intro data h
    have : data = [] := List.eq_nil_of_length_eq_zero (by omega)
    subst this
    simp [py_chunks_nil]
  | succ n ih =>
    intro data h
    rcases eq_or_ne data [] with rfl | hne
    · simp [py_chunks_nil]
    · rw [py_chunks_cons bs hbs data hne]
      have hlen : 0 < data.length := List.length_pos.mpr hne
      rw [List.flatten_cons, ih (data.drop bs) (by simp; omega)]
      exact List.take_append_drop bs data

theorem write_batch_go_all_true :
    ∀ (cs : List (List Record)) (idx : Nat),
      write_batch_go (fun _ _ => true) cs idx = (true, cs)
  | [], _ => rfl
  | c :: rest, idx => by
    simp [write_batch_go, write_batch_go_all_true rest (idx + 1)]

/-- C4: `_write_telemetry_batch` partitions its input into contiguous
chunks of at most `batch_size` records each, preserving record order
(concatenating the chunks gives back the input); a batch of
`2 * batch_size + 1` records, when every chunk write succeeds, produces
exactly 3 chunk-write calls of sizes `[batch_size, batch_size, 1]`. -/
theorem write_batch_chunking (batch_size : Nat) (data : List Record)
    (hbs : 0 < batch_size) :
    ((py_chunks batch_size data).flatten = data)
  ∧ (∀ c ∈ py_chunks batch_size data, c.length ≤ batch_size)
  ∧ (data.length = 2 * batch_size + 1 →
      (write_telemetry_batch batch_size (fun _ _ => true) data).2 =
        py_chunks batch_size data
      ∧ (write_telemetry_batch batch_size (fun _ _ => true) data).2.map
          List.length = [batch_size, batch_size, 1]) := by
  refine ⟨py_chunks_flatten batch_size hbs data.length data (Nat.le_refl _), ?_, ?_⟩
  · intro c hc
    simp only [py_chunks, List.mem_map, List.mem_range] at hc
    obtain ⟨j, _, rfl⟩ := hc
    apply List.length_take_le
  · intro hlen
    have hne : data.isEmpty = false := by
      cases data with
      | nil => simp at hlen
      | cons a l => rfl
    have hwb : write_telemetry_batch batch_size (fun _ _ => true) data =
        (true, py_chunks batch_size data) := by
      unfold write_telemetry_batch
      rw [hne]
      simpa using write_batch_go_all_true (py_chunks batch_size data) 0
    refine ⟨by rw [hwb], ?_⟩
    rw [hwb]
    have hN : (data.length + batch_size - 1) / batch_size = 3 := by
      have h1 : data.length + batch_size - 1 = 3 * batch_size := by omega
      rw [h1, Nat.mul_div_cancel _ hbs]
    show ((List.range ((data.length + batch_size - 1) / batch_size)).map _).map _ = _
    rw [hN]
    have hr : List.range 3 = [0, 1, 2] := rfl
    rw [hr]
    simp [List.length_take, List.length_drop, hlen]
    omega

/-- Witness for C4 at `batch_size = 2` and five records. -/
theorem write_batch_chunking_witness :
    (py_chunks 2 (List.replicate 5 ([] : Record))).flatten =
      List.replicate 5 ([] : Record)
  ∧ (write_telemetry_batch 2 (fun _ _ => true)
        (List.replicate 5 ([] : Record))).2.map List.length = [2, 2, 1] :=
  ⟨(write_batch_chunking 2 (List.replicate 5 ([] : Record)) (by decide)).1,
   ((write_batch_chunking 2 (List.replicate 5 ([] : Record)) (by decide)).2.2
      (by decide)).2⟩

theorem write_batch_go_fail (cw : List Record → Nat → Bool) :
    ∀ (cs : List (List Record)) (idx j : Nat) (hj : j < cs.length),
      (∀ i (hi : i < cs.length), i < j → cw (cs.get ⟨i, hi⟩) (idx + i) = true) →
      cw (cs.get ⟨j, hj⟩) (idx + j) = false →
      write_batch_go cw cs idx = (false, cs.take (j + 1)) := by
  intro cs
  induction cs with
  | nil =>
    intro idx j hj
    exact absurd hj (by simp)
  | cons c rest ih =>
    intro idx j hj hpre hfail
    cases j with
    | zero =>
      have hc : cw c idx = false := by simpa using hfail
      simp [write_batch_go, hc]
    | succ j' =>
      have hc : cw c idx = true := by
        have := hpre 0 (by simp) (by omega)
        simpa using this
      have hj' : j' < rest.length := by simpa using hj
      have hrec := ih (idx + 1) j' hj'
        (fun i hi hlt => by
          have := hpre (i + 1) (by simpa using Nat.succ_lt_succ hi)
            (Nat.succ_lt_succ hlt)
          have harith : idx + (i + 1) = idx + 1 + i := by omega
          rw [harith] at this
          exact this)
        (by
          have harith : idx + (j' + 1) = idx + 1 + j' := by omega
          rw [harith] at hfail
          exact hfail)
      simp only [write_batch_go, hc, if_true]
      rw [hrec]
      simp [List.take_succ_cons]

/-- C5: `_write_telemetry_batch` writes the chunks sequentially; when the
writes of the first `j` chunks succeed and the write of chunk `j` fails,
it returns false and the chunk-write calls made are exactly the chunks
`0, …, j`, once each in order — later chunks are never attempted, earlier
successful ones are neither retried nor rolled back. -/
theorem write_batch_first_failure (batch_size : Nat)
    (cw : List Record → Nat → Bool) (data : List Record) (j : Nat)
    (hj : j < (py_chunks batch_size data).length)
    (hpre : ∀ i (hi : i < (py_chunks batch_size data).length), i < j →
       cw ((py_chunks batch_size data).get ⟨i, hi⟩) i = true)
    (hfail : cw ((py_chunks batch_size data).get ⟨j, hj⟩) j = false) :
    write_telemetry_batch batch_size cw data =
      (false, (py_chunks batch_size data).take (j + 1)) := by
  have hne : data.isEmpty = false := by
    cases hd : data with
    | nil =>
      rw [hd, py_chunks_nil] at hj
      simp at hj
    | cons a l => rfl
  unfold write_telemetry_batch
  rw [hne]
  simp only [Bool.false_eq_true, if_false]
  exact write_batch_go_fail cw _ 0 j hj
    (fun i hi hlt => by simpa using hpre i hi hlt) (by simpa using hfail)

/-- Witness for C5: three one-record chunks (`batch_size = 1`), the write
of chunk 1 failing: only chunks 0 and 1 are attempted and the batch write
returns false. -/
theorem write_batch_first_failure_witness :
    write_telemetry_batch 1 (fun _ idx => decide (idx = 0))
        [([] : Record), [], []] =
      (false, [[([] : Record)], [[]]]) :=
  (write_batch_first_failure 1 (fun _ idx => decide (idx = 0))
      [([] : Record), [], []] 1 (by decide)
      (fun i hi hlt => by
        have : i = 0 := by omega
        subst this
        rfl)
      (by rfl)).trans (by rfl)

/-! Flush and buffer theorems. -/

/-- C2: whenever `flush_batch` returns false (the remote write failed),
the storage state is exactly what it was before the call — the pending
batch keeps the same records in the same order, so the status snapshot's
`pending_records` is unchanged. -/
theorem flush_batch_failure_preserves (cw : List Record → Nat → Bool)
    (s : TelemetryStorage) (h : (flush_batch cw s).1 = false) :
    (flush_batch cw s).2.1 = s
  ∧ ∀ health,
      (get_batch_status health (flush_batch cw s).2.1).pending_records
        = (get_batch_status health s).pending_records := by
  unfold flush_batch at h ⊢
  by_cases he : s.pending_batch.isEmpty
  · rw [if_pos he] at h
    exact absurd h (by simp)
  · rw [if_neg he] at h ⊢
    by_cases hw : (write_telemetry_batch s.batch_size cw s.pending_batch).1 = true
    · rw [if_pos hw] at h
      exact absurd h (by simp)
    · rw [if_neg hw]
      exact ⟨rfl, fun _ => rfl⟩

/-- Witness for C2: one pending record, every chunk write failing — the
flush returns false and leaves the state untouched. -/
theorem flush_batch_failure_preserves_witness :
    (flush_batch (fun _ _ => false) ⟨1, 3, [[]]⟩).2.1 = (⟨1, 3, [[]]⟩ : TelemetryStorage)
  ∧ (get_batch_status true (flush_batch (fun _ _ => false) ⟨1, 3, [[]]⟩).2.1).pending_records
      = (get_batch_status true (⟨1, 3, [[]]⟩ : TelemetryStorage)).pending_records :=
  ⟨(flush_batch_failure_preserves (fun _ _ => false) ⟨1, 3, [[]]⟩ (by decide)).1,
   (flush_batch_failure_preserves (fun _ _ => false) ⟨1, 3, [[]]⟩ (by decide)).2 true⟩

/-- C6: `flush_batch` on an empty pending batch is a no-op returning true
without any chunk-write call; and whenever it returns true the pending
batch is cleared as a whole, so the status snapshot afterwards reports
`pending_records = 0`. -/
theorem flush_batch_empty_and_success (cw : List Record → Nat → Bool)
    (s : TelemetryStorage) :
    (s.pending_batch = [] → flush_batch cw s = (true, s, []))
  ∧ ((flush_batch cw s).1 = true →
      (flush_batch cw s).2.1.pending_batch = []
    ∧ ∀ health,
        (get_batch_status health (flush_batch cw s).2.1).pending_records = 0) := by
  constructor
  · intro he
    unfold flush_batch
    rw [if_pos (by simp [he])]
  · intro h
    unfold flush_batch at h ⊢
    by_cases he : s.pending_batch.isEmpty
    · rw [if_pos he]
      have hnil : s.pending_batch = [] := by simpa using he
      exact ⟨hnil, fun _ => by simp [get_batch_status, hnil]⟩
    · rw [if_neg he] at h ⊢
      by_cases hw : (write_telemetry_batch s.batch_size cw s.pending_batch).1 = true
      · rw [if_pos hw]
        exact ⟨rfl, fun _ => rfl⟩
      · rw [if_neg hw] at h
        exact absurd h (by simp)

/-- Witness for C6: a flush of an empty batch is the identity with no
chunk writes, and a successful flush of one record leaves zero pending. -/
theorem flush_batch_empty_and_success_witness :
    flush_batch (fun _ _ => false) ⟨1, 3, []⟩ = (true, ⟨1, 3, []⟩, [])
  ∧ (flush_batch (fun _ _ => true) ⟨1, 3, [[]]⟩).2.1.pending_batch = [] :=
  ⟨(flush_batch_empty_and_success (fun _ _ => false) ⟨1, 3, []⟩).1 rfl,
   ((flush_batch_empty_and_success (fun _ _ => true) ⟨1, 3, [[]]⟩).2 (by decide)).1⟩

theorem add_telemetry_data_no_flush (cw : List Record → Nat → Bool)
    (now : List Char) (record : Record) (s : TelemetryStorage)
    (h : ¬ (s.batch_size ≤ s.pending_batch.length + 1)) :
    add_telemetry_data cw now record s =
      (true, { s with pending_batch :=
        s.pending_batch ++ [stamp_created_at record now] }, 0) := by
  unfold add_telemetry_data
  rw [if_neg (by simpa using h)]

theorem add_telemetry_data_with_flush (cw : List Record → Nat → Bool)
    (now : List Char) (record : Record) (s : TelemetryStorage)
    (h : s.batch_size ≤ s.pending_batch.length + 1) :
    add_telemetry_data cw now record s =
      ((flush_batch cw { s with pending_batch :=
          s.pending_batch ++ [stamp_created_at record now] }).1,
       (flush_batch cw { s with pending_batch :=
          s.pending_batch ++ [stamp_created_at record now] }).2.1,
       1) := by
  unfold add_telemetry_data
  rw [if_pos (by simpa using h)]

theorem add_seq_below_threshold (cw : List Record → Nat → Bool) (now : List Char) :
    ∀ (records : List Record) (s : TelemetryStorage),
      s.pending_batch.length + records.length < s.batch_size →
      add_seq cw now records s =
        ({ s with pending_batch :=
            s.pending_batch ++ records.map (fun r => stamp_created_at r now) }, 0) := by
  intro records
  induction records with
  | nil => intro s h; simp [add_seq]
  | cons r rest ih =>
    intro s h
    have hnf : ¬ (s.batch_size ≤ s.pending_batch.length + 1) := by
      simp only [List.length_cons] at h
      omega
    have hstep := add_telemetry_data_no_flush cw now r s hnf
    unfold add_seq
    rw [List.foldl_cons]
    show List.foldl _
      ((add_telemetry_data cw now r s).2.1, 0 + (add_telemetry_data cw now r s).2.2)
      rest = _
    rw [hstep]
    show List.foldl _
      ({ s with pending_batch := s.pending_batch ++ [stamp_created_at r now] }, 0)
      rest = _
    have hrest := ih { s with pending_batch := s.pending_batch ++ [stamp_created_at r now] }
      (by
        simp only [List.length_append, List.length_cons, List.length_nil]
        simp only [List.length_cons] at h
        omega)
    unfold add_seq at hrest
    rw [hrest]
    simp [List.append_assoc]

/-- C3: `add_telemetry_data` stamps `created_at` when missing and appends
the record to the pending batch; when the resulting length reaches
`batch_size` it invokes `flush_batch` once and returns its result,
otherwise it returns true with no flush. Consequently, starting from an
empty buffer, exactly `batch_size` adds trigger exactly one flush, and
`batch_size - 1` adds trigger none. -/
theorem add_telemetry_spec :
    (∀ (cw : List Record → Nat → Bool) (now : List Char) (record : Record)
        (s : TelemetryStorage),
       ¬ (s.batch_size ≤ s.pending_batch.length + 1) →
       add_telemetry_data cw now record s =
         (true, { s with pending_batch :=
            s.pending_batch ++ [stamp_created_at record now] }, 0))
  ∧ (∀ (cw : List Record → Nat → Bool) (now : List Char) (record : Record)
        (s : TelemetryStorage),
       s.batch_size ≤ s.pending_batch.length + 1 →
       add_telemetry_data cw now record s =
         ((flush_batch cw { s with pending_batch :=
             s.pending_batch ++ [stamp_created_at record now] }).1,
          (flush_batch cw { s with pending_batch :=
             s.pending_batch ++ [stamp_created_at record now] }).2.1,
          1))
  ∧ (∀ (cw : List Record → Nat → Bool) (now : List Char)
        (records : List Record) (s : TelemetryStorage),
       s.pending_batch = [] → records.length = s.batch_size →
       0 < s.batch_size → (add_seq cw now records s).2 = 1)
  ∧ (∀ (cw : List Record → Nat → Bool) (now : List Char)
        (records : List Record) (s : TelemetryStorage),
       s.pending_batch = [] → records.length + 1 = s.batch_size →
       (add_seq cw now records s).2 = 0) := by
  refine ⟨?_, ?_, ?_, ?_⟩
  · intro cw now record s h
    exact add_telemetry_data_no_flush cw now record s h
  · intro cw now record s h
    exact add_telemetry_data_with_flush cw now record s h
  · intro cw now records s hnil hlen hbs
    rcases List.eq_nil_or_concat records with rfl | ⟨xs, x, rfl⟩
    · rw [← hlen] at hbs
      simp at hbs
    · have hxs : xs.length + 1 = s.batch_size := by
        simpa using hlen
      have hfirst := add_seq_below_threshold cw now xs s (by rw [hnil]; simp; omega)
      rw [List.concat_eq_append]
      unfold add_seq
      rw [List.foldl_append]
      unfold add_seq at hfirst
      rw [hfirst, List.foldl_cons, List.foldl_nil]
      show ((add_telemetry_data cw now x
          { s with pending_batch :=
              s.pending_batch ++ xs.map (fun r => stamp_created_at r now) }).2.1,
        0 + (add_telemetry_data cw now x
          { s with pending_batch :=
              s.pending_batch ++ xs.map (fun r => stamp_created_at r now) }).2.2).2 = 1
      rw [add_telemetry_data_with_flush cw now x _ (by simp [hnil]; omega)]
      rfl
  · intro cw now records s hnil hlen
    rw [add_seq_below_threshold cw now records s (by rw [hnil]; simp; omega)]

/-- Witness for C3 with `batch_size = 2`: a below-threshold add appends
the stamped record and flushes nothing; two adds from empty trigger
exactly one flush; one add from empty triggers none. -/
theorem add_telemetry_spec_witness :
    add_telemetry_data (fun _ _ => true) "T".data [] ⟨2, 3, []⟩ =
      (true, ⟨2, 3, [[("created_at".data, PyVal.str "T".data)]]⟩, 0)
  ∧ (add_seq (fun _ _ => true) "T".data [[], []] ⟨2, 3, []⟩).2 = 1
  ∧ (add_seq (fun _ _ => true) "T".data [[]] ⟨2, 3, []⟩).2 = 0 :=
  ⟨(add_telemetry_spec.1 (fun _ _ => true) "T".data [] ⟨2, 3, []⟩
      (by decide)).trans (by decide),
   add_telemetry_spec.2.2.1 (fun _ _ => true) "T".data [[], []] ⟨2, 3, []⟩
     rfl (by decide) (by decide),
   add_telemetry_spec.2.2.2 (fun _ _ => true) "T".data [[]] ⟨2, 3, []⟩
     rfl (by decide)⟩

/-! Frame effect of the in-place stamping, and its visibility in the
ingest response. -/

/-- C10: `add_telemetry_data` mutates the caller's record in place —
`created_at` is written only when the key is absent (an existing
`created_at` is never overwritten) and no other field changes; and the
`parsed_data` returned by the ingest route with `store = true` is exactly
that stamped record, which always contains a `created_at` key. -/
theorem stamp_created_at_spec :
    (∀ (record : Record) (now : List Char),
       dict_contains record "created_at".data = true →
       stamp_created_at record now = record)
  ∧ (∀ (record : Record) (now : List Char),
       dict_contains record "created_at".data = false →
       stamp_created_at record now =
         record ++ [("created_at".data, PyVal.str now)])
  ∧ (∀ (record : Record) (now k : List Char), k ≠ "created_at".data →
       dict_get (stamp_created_at record now) k = dict_get record k)
  ∧ (∀ (record : Record) (now : List Char),
       dict_contains (stamp_created_at record now) "created_at".data = true)
  ∧ (∀ (cw : List Record → Nat → Bool) (now raw : List Char)
        (s : TelemetryStorage), raw.isEmpty = false →
       (parse_telemetry_route cw now raw true s).1.parsed_data =
         some (stamp_created_at (parse_telemetry_line raw) now)) := by
  have hset : ∀ (record : Record) (now : List Char),
      dict_contains record "created_at".data = false →
      stamp_created_at record now =
        record ++ [("created_at".data, PyVal.str now)] := by
    intro record now h
    unfold stamp_created_at
    rw [if_neg (by simp [h])]
    unfold dict_set
    rw [if_neg (by simp [h])]
  refine ⟨?_, hset, ?_, ?_, ?_⟩
  · intro record now h
    unfold stamp_created_at
    rw [if_pos (by simp [h])]
  · intro record now k hk
    unfold stamp_created_at
    by_cases h : dict_contains record "created_at".data
    · rw [if_pos h]
    · rw [if_neg h]
      exact dict_get_set_ne record _ k _ hk
  · intro record now
    unfold stamp_created_at
    by_cases h : dict_contains record "created_at".data
    · rw [if_pos h]
      exact h
    · rw [if_neg h]
      exact dict_contains_set_self record _ _
  · intro cw now raw s hraw
    unfold parse_telemetry_route
    rw [hraw]
    rfl

/-- Witness for C10: stamping leaves a record that already has
`created_at` unchanged, and the route's `parsed_data` for `"pitch:8"`
with `store = true` is the stamped parse result. -/
theorem stamp_created_at_spec_witness :
    stamp_created_at [("created_at".data, PyVal.int 7)] "T".data =
      [("created_at".data, PyVal.int 7)]
  ∧ (parse_telemetry_route (fun _ _ => true) "T".data "pitch:8".data true
      ⟨5, 3, []⟩).1.parsed_data =
      some (stamp_created_at (parse_telemetry_line "pitch:8".data) "T".data) :=
  ⟨stamp_created_at_spec.1 [("created_at".data, PyVal.int 7)] "T".data (by decide),
   stamp_created_at_spec.2.2.2.2 (fun _ _ => true) "T".data "pitch:8".data
     ⟨5, 3, []⟩ (by decide)⟩

/-! The query route. -/

/-- C9 counterexample: the route performs no non-negativity validation and
signals malformed parameters with a server error. With `limit = "-5"` the
operation does not fail — the remote store is called with the negative
range `(0, -6)`; with `limit = "abc"` the operation stops before any
remote call but answers 500, a server-error signal, not a client error. -/
theorem query_validation_counterexample :
    query_telemetry ⟨some "-5".data, none, none, none⟩ =
      (200, true, some ⟨"created_at".data, true, 0, -6⟩)
  ∧ query_telemetry ⟨some "abc".data, none, none, none⟩ = (500, false, none) :=
  ⟨by decide, by decide⟩

/-- C9 as amended: `query_telemetry` parses `limit` and `offset` with
Python `int()` and never checks their sign; a malformed value fails the
operation before any remote call but with a server-error signal (500),
while any value that parses — negative included — is delegated to the
remote store as the range `(offset, offset + limit - 1)`. -/
theorem query_validation_amended :
    (∀ args : QueryArgs, py_arg_int args.limit 100 = none →
       query_telemetry args = (500, false, none))
  ∧ (∀ (args : QueryArgs) (lim : Int), py_arg_int args.limit 100 = some lim →
       py_arg_int args.offset 0 = none →
       query_telemetry args = (500, false, none))
  ∧ (∀ (args : QueryArgs) (lim off : Int),
       py_arg_int args.limit 100 = some lim →
       py_arg_int args.offset 0 = some off →
       query_telemetry args =
         (200, true, some ⟨args.order_by.getD "created_at".data,
           decide (((args.desc.getD "true".data).map Char.toLower) = "true".data),
           off, off + lim - 1⟩)) := by
  refine ⟨?_, ?_, ?_⟩
  · intro args h
    unfold query_telemetry
    rw [h]
  · intro args lim h1 h2
    unfold query_telemetry
    rw [h1, h2]
  · intro args lim off h1 h2
    unfold query_telemetry
    rw [h1, h2]

/-- Witness for the amended C9: `limit = "abc"` gives the 500 path with no
remote call; `limit = "-5"` gives the 200 path with the negative range. -/
theorem query_validation_amended_witness :
    query_telemetry ⟨some "abc".data, none, none, none⟩ = (500, false, none)
  ∧ query_telemetry ⟨some "-5".data, none, none, none⟩ =
      (200, true, some ⟨"created_at".data, true, 0, 0 + -5 - 1⟩) :=
  ⟨query_validation_amended.1 ⟨some "abc".data, none, none, none⟩ (by decide),
   query_validation_amended.2.2 ⟨some "-5".data, none, none, none⟩ (-5) 0
     (by decide) (by decide)⟩

end TelemetrySpec
